import Mathlib

/-!
Verification of the affordability interpolation and percentile-ranking engine
of the ami-affordability-map repository.

The embedding follows the TypeScript source:
  * `src/lib/bracket-math.ts` — `BRACKET_BOUNDS`, `computeAffordabilityPct`;
  * `src/lib/msa-percentile.ts` — `computeMsaPercentile` and its per-tract
    threshold selection;
  * `src/app/api/choropleth/route.ts` — the bounded `loadMsaData` cache;
  * `src/components/Map.tsx` — the sort-plus-binary-search percentile count.

JavaScript numbers are modelled as rationals (`ℚ`); `Infinity` as the upper
bound of the open top bracket is modelled as `Option.none`; a JavaScript
exception (out-of-range destructuring) is modelled by `Option.none` /
`Except.error ()` at the function boundary.
-/

namespace AmiMap

/-- JavaScript `Math.round`: round half toward positive infinity,
`Math.round x = ⌊x + 1/2⌋`. -/
def jsRound (q : ℚ) : ℤ := ⌊q + 1/2⌋

/-- The 16 ACS B19001 income-bracket bounds of `src/lib/bracket-math.ts`
(`BRACKET_BOUNDS`); the top bracket's `Infinity` upper bound is `none`. -/
def BRACKET_BOUNDS : List (ℚ × Option ℚ) :=
  [(0, some 9999), (10000, some 14999), (15000, some 19999), (20000, some 24999),
   (25000, some 29999), (30000, some 34999), (35000, some 39999), (40000, some 44999),
   (45000, some 49999), (50000, some 59999), (60000, some 74999), (75000, some 99999),
   (100000, some 124999), (125000, some 149999), (150000, some 199999), (200000, none)]

/-- One iteration of the loop body of `computeAffordabilityPct`
(`src/lib/bracket-math.ts` lines 31–45): what bracket `b` with household
count `count` adds to `householdsAbove` at a given income threshold. -/
def bracketContrib (incomeThreshold : ℚ) (b : ℚ × Option ℚ) (count : ℚ) : ℚ :=
  match b with
  | (mn, some mx) =>
      if mn ≥ incomeThreshold then count
      else if mx ≥ incomeThreshold then
        count * ((mx - incomeThreshold + 1) / (mx - mn + 1))
      else 0
  | (mn, none) =>
      if mn ≥ incomeThreshold then count
      else if mn < incomeThreshold then count
      else 0

/-- The loop of `computeAffordabilityPct`: sum `bracketContrib` over the
bracket counts, pairing index `i` with `BRACKET_BOUNDS[i]`.  When the count
list is longer than the remaining bounds, `BRACKET_BOUNDS[i]` is `undefined`
in JavaScript and the destructuring `const [min, max] = ...` throws; that
crash is `none`. -/
def householdsAboveAux (t : ℚ) : List (ℚ × Option ℚ) → List ℚ → Option ℚ
  | _, [] => some 0
  | [], _ :: _ => none
  | b :: bs, c :: cs =>
      (householdsAboveAux t bs cs).map (fun r => bracketContrib t b c + r)

/-- `computeAffordabilityPct` of `src/lib/bracket-math.ts` lines 23–48.
`none` models the JavaScript `TypeError` thrown when `bracketCounts` is
longer than the 16-entry bounds table (the `totalHouseholds === 0` early
return precedes the loop, so that case never throws). -/
def computeAffordabilityPct (incomeThreshold totalHouseholds : ℚ)
    (bracketCounts : List ℚ) : Option ℚ :=
  if totalHouseholds = 0 then some 0
  else
    (householdsAboveAux incomeThreshold BRACKET_BOUNDS bracketCounts).map
      (fun h => (jsRound (h / totalHouseholds * 1000) : ℚ) / 10)

/-- The 15 bounded brackets: `BRACKET_BOUNDS` without its open top bracket. -/
def FRONT15 : List (ℚ × Option ℚ) := BRACKET_BOUNDS.take 15

/-! ## The percentile ranker (`src/lib/msa-percentile.ts`) -/

/-- `CbsaInfo` of `src/lib/msa-percentile.ts`: a metropolitan region's code
and display name. -/
structure CbsaInfo where
  code : String
  name : String
deriving DecidableEq, Repr

/-- One row of a per-region dataset (`data/msa/<code>.json`): a flat array
`[GEOID, totalHouseholds, ...bracketCounts]`, split as the ranker's loop does
(`tract[0]`, `tract[1]`, `tract.slice(2)`). -/
structure MsaTract where
  fips : String
  total : ℚ
  brackets : List ℚ
deriving DecidableEq, Repr

/-- `PercentileResult` of `src/lib/msa-percentile.ts`. -/
structure PercentileResult where
  percentile : ℚ
  msaTractCount : ℕ
  cbsaName : String
deriving DecidableEq, Repr

/-- The per-tract threshold selection of `computeMsaPercentile`
(`src/lib/msa-percentile.ts` lines 85–97): with SAFMR data, a tract whose
representative ZIP has a truthy rent at `bedroomIndex` gets
`localFmr * 12 / 0.3`; otherwise the uniform `incomeThreshold`.  JavaScript
truthiness: a missing ZIP, the empty-string ZIP, a missing table entry, a
missing array slot (`undefined`) and a zero rent are all falsy. -/
def effectiveThreshold (zipMapping : String → Option String)
    (safmrByZip : Option (String → Option (List ℚ))) (bedroomIndex : ℕ)
    (incomeThreshold : ℚ) (fips : String) : ℚ :=
  match safmrByZip with
  | none => incomeThreshold
  | some table =>
    match zipMapping fips with
    | none => incomeThreshold
    | some zip =>
      if zip = "" then incomeThreshold
      else
        match table zip with
        | none => incomeThreshold
        | some fmrArr =>
          match fmrArr[bedroomIndex]? with
          | none => incomeThreshold
          | some localFmr =>
            if localFmr = 0 then incomeThreshold
            else localFmr * 12 / (3/10)

/-- The main loop of `computeMsaPercentile` (lines 80–105): left to right over
the region's rows, collect every tract's affordability percentage and record
the target's (a later row with the target GEOID overwrites an earlier one).
`Except.error ()` models an exception escaping the loop. -/
def scanTracts (zipMapping : String → Option String)
    (safmrByZip : Option (String → Option (List ℚ))) (bedroomIndex : ℕ)
    (incomeThreshold : ℚ) (targetFips : String) :
    List MsaTract → Except Unit (List ℚ × Option ℚ)
  | [] => .ok ([], none)
  | tr :: rest =>
    match computeAffordabilityPct
        (effectiveThreshold zipMapping safmrByZip bedroomIndex incomeThreshold tr.fips)
        tr.total tr.brackets with
    | none => .error ()
    | some pct =>
      match scanTracts zipMapping safmrByZip bedroomIndex incomeThreshold targetFips rest with
      | .error e => .error e
      | .ok (ps, tp) =>
          .ok (pct :: ps,
            tp.orElse (fun _ => if tr.fips = targetFips then some pct else none))

/-- The direct linear count of `src/lib/msa-percentile.ts` line 110:
`tractPcts.filter((p) => p < targetPct).length`. -/
def linearBelowCount (pcts : List ℚ) (x : ℚ) : ℕ :=
  (pcts.filter fun p => decide (p < x)).length

/-- Lines 110–111 of `src/lib/msa-percentile.ts`: the percentile of
`targetPct` among `tractPcts` — the share of strictly smaller percentages,
rounded to one decimal. -/
def percentileOf (tractPcts : List ℚ) (targetPct : ℚ) : ℚ :=
  (jsRound ((linearBelowCount tractPcts targetPct : ℚ)
      / (tractPcts.length : ℚ) * 1000) : ℚ) / 10

/-- `computeMsaPercentile` of `src/lib/msa-percentile.ts` lines 55–118.
The three lookup tables are passed explicitly (the source reads them from
process-lifetime singletons): `countyToCbsa` is `county-to-cbsa.json`,
`msaStore` the keyed per-region blob store behind `loadMsaData` (`none` when
the load fails), `zipMapping` is `tract-to-zip.json`.  `.ok none` is the
source's `null`; `.error ()` an exception. -/
def computeMsaPercentile (countyToCbsa : String → Option CbsaInfo)
    (msaStore : String → Option (List MsaTract))
    (zipMapping : String → Option String)
    (stateFips countyFips tractFips : String) (incomeThreshold : ℚ)
    (safmrByZip : Option (String → Option (List ℚ))) (bedroomIndex : ℕ) :
    Except Unit (Option PercentileResult) :=
  match countyToCbsa (stateFips ++ countyFips) with
  | none => .ok none
  | some cbsa =>
    match msaStore cbsa.code with
    | none => .ok none
    | some msaData =>
      if msaData.isEmpty then .ok none
      else
        match scanTracts zipMapping safmrByZip bedroomIndex incomeThreshold
            (stateFips ++ countyFips ++ tractFips) msaData with
        | .error e => .error e
        | .ok (_, none) => .ok none
        | .ok (pcts, some targetPct) =>
            .ok (some ⟨percentileOf pcts targetPct, pcts.length, cbsa.name⟩)

/-! ## The bounded region-dataset cache (`src/app/api/choropleth/route.ts`) -/

/-- `MSA_DATA_MAX` of `src/app/api/choropleth/route.ts` line 17. -/
def MSA_DATA_MAX : ℕ := 5

/-- The `msaDataCache` JavaScript `Map`, as its ordered entry list: a
`Map` iterates keys in insertion order, so `keys().next().value` — the entry
the eviction deletes — is the head. -/
structure MsaCache where
  entries : List (String × List MsaTract)
deriving DecidableEq

/-- `msaDataCache.get`/`has`: the value stored under `code`, if any. -/
def cacheGet (cache : MsaCache) (code : String) : Option (List MsaTract) :=
  cache.entries.lookup code

/-- `loadMsaData` of `src/app/api/choropleth/route.ts` lines 44–58 as a state
transformer over the cache: on a hit return the cached value; on a miss
consult the backing store (`none` = the file read threw, caught and turned
into `null`, the cache untouched); on a successful load, delete the oldest
entry when at capacity, then append the new entry. -/
def loadMsaData (store : String → Option (List MsaTract)) (cache : MsaCache)
    (code : String) : Option (List MsaTract) × MsaCache :=
  match cacheGet cache code with
  | some d => (some d, cache)
  | none =>
    match store code with
    | none => (none, cache)
    | some d =>
      let pruned :=
        if MSA_DATA_MAX ≤ cache.entries.length then cache.entries.drop 1
        else cache.entries
      (some d, ⟨pruned ++ [(code, d)]⟩)

/-- A sequence of `loadMsaData` calls, threading the cache state. -/
def runLoads (store : String → Option (List MsaTract)) (cache : MsaCache)
    (codes : List String) : MsaCache :=
  codes.foldl (fun c k => (loadMsaData store c k).2) cache

/-! ## The sort-plus-binary-search count (`src/components/Map.tsx` 249–270) -/

/-- The binary-search loop of `src/components/Map.tsx` lines 256–263:
lower-bound search for `x` over the sorted array `s` between `lo` and `hi`
(`mid = (lo + hi) >> 1`; move `lo` past `mid` when `s[mid] < x`, else close
`hi` down to `mid`). -/
def lowerBoundAux (s : List ℚ) (x : ℚ) (lo hi : ℕ) : ℕ :=
  if h : lo < hi then
    let mid := (lo + hi) / 2
    if s.getD mid 0 < x then lowerBoundAux s x (mid + 1) hi
    else lowerBoundAux s x lo mid
  else lo
termination_by hi - lo
decreasing_by
  · have hmid : (lo + hi) / 2 < hi := Nat.div_lt_of_lt_mul (by omega)
    omega
  · have hmid : lo ≤ (lo + hi) / 2 := Nat.le_div_iff_mul_le (by omega) |>.mpr (by omega)
    have hmid2 : (lo + hi) / 2 < hi := Nat.div_lt_of_lt_mul (by omega)
    omega

/-- The sort-then-binary-search `belowCount` of `src/components/Map.tsx`:
sort the percentages ascending once, then binary-search the lower bound of
the target value. -/
def binarySearchBelowCount (pcts : List ℚ) (x : ℚ) : ℕ :=
  let sorted := pcts.insertionSort (· ≤ ·)
  lowerBoundAux sorted x 0 sorted.length

/-! ## Concrete fixtures used by the scenario theorems -/

/-- A 20-household histogram with `k` households in bracket [50000, 59999]
and the rest in the lowest bracket: its affordability percentage at
threshold 50000 is exactly `5·k`. -/
def demoCounts (k : ℚ) : List ℚ :=
  [20 - k, 0, 0, 0, 0, 0, 0, 0, 0, k, 0, 0, 0, 0, 0, 0]

/-- Five tracts whose affordability percentages at threshold 50000 are
10, 20, 20, 55 and 90. -/
def demoMsaTracts : List MsaTract :=
  [⟨"01001000200", 20, demoCounts 2⟩, ⟨"01001000100", 20, demoCounts 4⟩,
   ⟨"01001000300", 20, demoCounts 4⟩, ⟨"01001000400", 20, demoCounts 11⟩,
   ⟨"01001000500", 20, demoCounts 18⟩]

/-- Demo county-to-region mapping: county 01001 belongs to region T1. -/
def demoCountyToCbsa : String → Option CbsaInfo := fun key =>
  if key = "01001" then some ⟨"T1", "TestRegion"⟩ else none

/-- Demo region store holding only region T1. -/
def demoMsaStore : String → Option (List MsaTract) := fun key =>
  if key = "T1" then some demoMsaTracts else none

/-- Demo tract-to-ZIP mapping with no entries. -/
def demoZipMapping : String → Option String := fun _ => none

/-- Tract-to-ZIP mapping for the zero-rent scenario: one tract mapped to
ZIP 99999. -/
def zeroRentZipMapping : String → Option String := fun f =>
  if f = "01001000100" then some "99999" else none

/-- SAFMR table whose ZIP-99999 entry carries rent 0 for every bedroom
count. -/
def zeroRentTable : String → Option (List ℚ) := fun z =>
  if z = "99999" then some [0, 0, 0, 0, 0] else none

/-! ## Basic facts about the interpolator -/

theorem BRACKET_BOUNDS_length : BRACKET_BOUNDS.length = 16 := rfl

/-- The loop succeeds exactly when the count list does not outrun the
bounds table. -/
theorem householdsAboveAux_isSome (t : ℚ) :
    ∀ (bs : List (ℚ × Option ℚ)) (cs : List ℚ),
      (householdsAboveAux t bs cs).isSome ↔ cs.length ≤ bs.length
  | _, [] => by simp [householdsAboveAux]
  | [], _ :: _ => by simp [householdsAboveAux]
  | b :: bs, c :: cs => by
      simp [householdsAboveAux, householdsAboveAux_isSome t bs cs]

/-- The open-ended top bracket always contributes its entire count,
whatever the threshold. -/
theorem bracketContrib_top (t mn c : ℚ) : bracketContrib t (mn, none) c = c := by
  show (if mn ≥ t then c else if mn < t then c else 0) = c
  split_ifs with h1 h2
  · rfl
  · rfl
  · exact absurd (not_le.mp h1) h2

/-- A bracket whose lower bound is at or above the threshold contributes
its entire count. -/
theorem bracketContrib_full (t : ℚ) (b : ℚ × Option ℚ) (c : ℚ) (h : t ≤ b.1) :
    bracketContrib t b c = c := by
  obtain ⟨mn, mx⟩ := b
  cases mx with
  | none => exact bracketContrib_top t mn c
  | some mx => simp only [bracketContrib, ge_iff_le]; rw [if_pos h]

/-- Extra bounds beyond the count list never matter. -/
theorem householdsAboveAux_extra_bounds (t : ℚ) :
    ∀ (bs bs' : List (ℚ × Option ℚ)) (cs : List ℚ), cs.length ≤ bs.length →
      householdsAboveAux t (bs ++ bs') cs = householdsAboveAux t bs cs
  | _, _, [], _ => by simp [householdsAboveAux]
  | [], bs', c :: cs, h => by simp at h
  | b :: bs, bs', c :: cs, h => by
      simp only [householdsAboveAux, List.cons_append, List.append_eq]
      rw [householdsAboveAux_extra_bounds t bs bs' cs (by simpa using h)]

/-- Appending one bracket-and-count pair at the end adds exactly that
bracket's contribution. -/
theorem householdsAboveAux_append_one (t : ℚ) (b : ℚ × Option ℚ) (c : ℚ) :
    ∀ (bs : List (ℚ × Option ℚ)) (cs : List ℚ), cs.length = bs.length →
      householdsAboveAux t (bs ++ [b]) (cs ++ [c]) =
        (householdsAboveAux t bs cs).map (fun r => r + bracketContrib t b c)
  | [], [], _ => by simp [householdsAboveAux]
  | [], c' :: cs, h => by simp at h
  | b' :: bs, [], h => by simp at h
  | b' :: bs, c' :: cs, h => by
      simp only [householdsAboveAux, List.cons_append, List.append_eq]
      rw [householdsAboveAux_append_one t b c bs cs (by simpa using h)]
      simp only [Option.map_map]
      congr 1
      funext r
      simp only [Function.comp_apply]
      ring

/-- At a threshold at or below every bracket minimum, every bracket counts
fully: the loop returns the histogram's total. -/
theorem householdsAboveAux_all_above (t : ℚ) :
    ∀ (bs : List (ℚ × Option ℚ)) (cs : List ℚ),
      (∀ b ∈ bs, t ≤ b.1) → cs.length ≤ bs.length →
      householdsAboveAux t bs cs = some cs.sum
  | _, [], _, _ => by simp [householdsAboveAux]
  | [], c :: cs, _, h => by simp at h
  | b :: bs, c :: cs, hb, h => by
      simp only [householdsAboveAux]
      rw [householdsAboveAux_all_above t bs cs (fun b' hb' => hb b' (by simp [hb']))
        (by simpa using h)]
      simp [bracketContrib_full t b c (hb b (by simp)), List.sum_cons]

/-! ## C1 — concrete scenario 1 of the interpolator -/

/-- Claim C1 (counterexample): with every one of the 16 bracket counts equal
to 10 (160 households) and threshold 32500, `computeAffordabilityPct` does
NOT return 40.6 (= 203/5): ten brackets, not six, lie entirely at or above
35000, so the claimed value miscounts. -/
theorem computeAffordabilityPct_scenario1_not_40_6 :
    computeAffordabilityPct 32500 160 (List.replicate 16 10) ≠ some (203/5) := by
  norm_num [computeAffordabilityPct, householdsAboveAux, bracketContrib,
    BRACKET_BOUNDS, jsRound, List.replicate]

/-- Claim C1 (amended): with every bracket count 10 and threshold 32500 the
interpolator returns 65.6 (= 328/5): 10·0.5 from the straddling bracket
[30000, 34999] plus 10·10 from the ten brackets at or above 35000 gives
householdsAbove = 105, and round(105/160·1000)/10 = 65.6. -/
theorem computeAffordabilityPct_scenario1 :
    computeAffordabilityPct 32500 160 (List.replicate 16 10) = some (328/5) := by
  norm_num [computeAffordabilityPct, householdsAboveAux, bracketContrib,
    BRACKET_BOUNDS, jsRound, List.replicate]

/-! ## C9 — thresholds at or below the lowest bracket minimum -/

/-- Claim C9 (counterexample): at threshold 0 with 1 household claimed but an
all-zero histogram, the result is 0, not the claimed 100.0 — without the
data-model side condition `sum(counts) = totalHouseholds` the claim fails. -/
theorem computeAffordabilityPct_floor_not_always_100 :
    computeAffordabilityPct 0 1 (List.replicate 16 0) ≠ some 100 := by
  norm_num [computeAffordabilityPct, householdsAboveAux, bracketContrib,
    BRACKET_BOUNDS, jsRound, List.replicate]

/-- Claim C9 (amended): for every threshold `t ≤ 0`, every `N > 0` and every
16-element bracket count list summing to `N` (the TractRecord invariant),
`computeAffordabilityPct t N counts = 100.0`. -/
theorem computeAffordabilityPct_floor_full (t N : ℚ) (cs : List ℚ) (ht : t ≤ 0)
    (hlen : cs.length = 16) (hsum : cs.sum = N) (hN : 0 < N) :
    computeAffordabilityPct t N cs = some 100 := by
  unfold computeAffordabilityPct
  rw [if_neg (ne_of_gt hN)]
  rw [householdsAboveAux_all_above t BRACKET_BOUNDS cs ?_ (by rw [hlen, BRACKET_BOUNDS_length])]
  · rw [hsum]
    simp only [Option.map_some', jsRound, div_self (ne_of_gt hN), one_mul]
    norm_num
  · intro b hb
    have h0 : (0:ℚ) ≤ b.1 := by
      fin_cases hb <;> norm_num
    linarith

/-- Witness for the amended C9: threshold 0, 160 households in 16 equal
brackets of 10. -/
theorem computeAffordabilityPct_floor_full_witness :
    computeAffordabilityPct 0 160 (List.replicate 16 10) = some 100 :=
  computeAffordabilityPct_floor_full 0 160 (List.replicate 16 10) le_rfl
    (by simp) (by norm_num [List.sum_replicate]) (by norm_num)

/-! ## C10 — totality of the interpolator, and necessity of the length bound -/

/-- Claim C10: for every bracket count list of length at most 16 and arbitrary
threshold and household total, `computeAffordabilityPct` is total (every
access into the 16-entry `BRACKET_BOUNDS` table is in range); and the bound
is necessary — a 17-element count list (with a nonzero total, so the loop
runs) indexes past the table and crashes. -/
theorem computeAffordabilityPct_total_iff_len_le :
    (∀ (t N : ℚ) (cs : List ℚ), cs.length ≤ 16 →
      (computeAffordabilityPct t N cs).isSome) ∧
    computeAffordabilityPct 0 1 (List.replicate 17 0) = none := by
  constructor
  · intro t N cs h
    unfold computeAffordabilityPct
    split
    · simp
    · simpa [householdsAboveAux_isSome, BRACKET_BOUNDS_length] using h
  · unfold computeAffordabilityPct
    rw [if_neg (by norm_num)]
    have h2 : householdsAboveAux 0 BRACKET_BOUNDS (List.replicate 17 0) = none := by
      cases hcase : householdsAboveAux 0 BRACKET_BOUNDS (List.replicate 17 0) with
      | none => rfl
      | some v =>
        have hs := (householdsAboveAux_isSome 0 BRACKET_BOUNDS (List.replicate 17 0)).mp
          (by rw [hcase]; rfl)
        rw [BRACKET_BOUNDS_length] at hs
        simp at hs
    rw [h2, Option.map_none']

/-! ## C3 — the open top bracket is never interpolated -/

/-- Claim C3: for every threshold (below, equal to or above 200000) and every
16-element count list, the open-ended top bracket contributes exactly its
entire count to `householdsAbove` — it is never fractionally interpolated. -/
theorem householdsAboveAux_top_never_interpolated (t : ℚ) (cs : List ℚ)
    (hlen : cs.length = 15) (ctop : ℚ) :
    householdsAboveAux t BRACKET_BOUNDS (cs ++ [ctop]) =
      (householdsAboveAux t BRACKET_BOUNDS cs).map (fun r => r + ctop) := by
  have h15 : BRACKET_BOUNDS = FRONT15 ++ [((200000 : ℚ), (none : Option ℚ))] := rfl
  have hlen15 : FRONT15.length = 15 := rfl
  calc householdsAboveAux t BRACKET_BOUNDS (cs ++ [ctop])
      = householdsAboveAux t (FRONT15 ++ [((200000 : ℚ), none)]) (cs ++ [ctop]) := by
        rw [← h15]
    _ = (householdsAboveAux t FRONT15 cs).map
          (fun r => r + bracketContrib t ((200000 : ℚ), none) ctop) :=
        householdsAboveAux_append_one t _ ctop _ cs (by rw [hlen, hlen15])
    _ = (householdsAboveAux t FRONT15 cs).map (fun r => r + ctop) := by
        rw [bracketContrib_top]
    _ = (householdsAboveAux t BRACKET_BOUNDS cs).map (fun r => r + ctop) := by
        rw [h15, householdsAboveAux_extra_bounds t FRONT15 _ cs (by rw [hlen, hlen15])]

/-- Witness for C3: a concrete 15-element prefix and top-bracket count 7 at a
threshold above 200000. -/
theorem householdsAboveAux_top_never_interpolated_witness :
    householdsAboveAux 250000 BRACKET_BOUNDS (List.replicate 15 1 ++ [7]) =
      (householdsAboveAux 250000 BRACKET_BOUNDS (List.replicate 15 1)).map
        (fun r => r + 7) :=
  householdsAboveAux_top_never_interpolated 250000 (List.replicate 15 1) (by simp) 7

/-! ## C4 — monotonicity in the threshold -/

/-- Each bracket's contribution is non-increasing in the threshold, given a
non-negative count and a well-formed bound pair. -/
theorem bracketContrib_antitone (t1 t2 : ℚ) (ht : t1 ≤ t2) (b : ℚ × Option ℚ)
    (hb : ∀ mx, b.2 = some mx → b.1 ≤ mx) (c : ℚ) (hc : 0 ≤ c) :
    bracketContrib t2 b c ≤ bracketContrib t1 b c := by
  obtain ⟨mn, mx⟩ := b
  cases mx with
  | none => rw [bracketContrib_top, bracketContrib_top]
  | some mx =>
    have hmx : mn ≤ mx := hb mx rfl
    have hw : (0 : ℚ) < mx - mn + 1 := by linarith
    show (if mn ≥ t2 then c else if mx ≥ t2 then c * ((mx - t2 + 1) / (mx - mn + 1)) else 0)
      ≤ (if mn ≥ t1 then c else if mx ≥ t1 then c * ((mx - t1 + 1) / (mx - mn + 1)) else 0)
    rcases le_or_lt t2 mn with h2 | h2
    · -- t2 at or below the minimum: both sides are the full count
      rw [if_pos (show mn ≥ t2 from h2), if_pos (show mn ≥ t1 by linarith)]
    · rw [if_neg (show ¬ mn ≥ t2 from not_le.mpr h2)]
      rcases le_or_lt t2 mx with h2x | h2x
      · -- t2 inside the bracket
        rw [if_pos (show mx ≥ t2 from h2x)]
        rcases le_or_lt t1 mn with h1 | h1
        · -- t1 at or below the minimum: the fraction is at most 1
          rw [if_pos (show mn ≥ t1 from h1)]
          have hr1 : (mx - t2 + 1) / (mx - mn + 1) ≤ 1 := by
            rw [div_le_one hw]; linarith
          calc c * ((mx - t2 + 1) / (mx - mn + 1)) ≤ c * 1 :=
                mul_le_mul_of_nonneg_left hr1 hc
            _ = c := mul_one c
        · -- both thresholds inside the bracket
          rw [if_neg (show ¬ mn ≥ t1 from not_le.mpr h1),
            if_pos (show mx ≥ t1 by linarith)]
          have hr : (mx - t2 + 1) / (mx - mn + 1) ≤ (mx - t1 + 1) / (mx - mn + 1) :=
            (div_le_div_iff_of_pos_right hw).mpr (by linarith)
          exact mul_le_mul_of_nonneg_left hr hc
      · -- t2 past the bracket: the left side is 0
        rw [if_neg (show ¬ mx ≥ t2 from not_le.mpr h2x)]
        rcases le_or_lt t1 mn with h1 | h1
        · rw [if_pos (show mn ≥ t1 from h1)]; exact hc
        · rcases le_or_lt t1 mx with h1x | h1x
          · rw [if_neg (show ¬ mn ≥ t1 from not_le.mpr h1),
              if_pos (show mx ≥ t1 from h1x)]
            exact mul_nonneg hc (div_nonneg (by linarith) (le_of_lt hw))
          · rw [if_neg (show ¬ mn ≥ t1 from not_le.mpr h1),
              if_neg (show ¬ mx ≥ t1 from not_le.mpr h1x)]

/-- Every entry of the bounds table is well-formed: `min ≤ max` when the
upper bound is finite. -/
theorem BRACKET_BOUNDS_wf :
    ∀ b ∈ BRACKET_BOUNDS, ∀ mx : ℚ, b.2 = some mx → b.1 ≤ mx := by
  intro b hb
  fin_cases hb <;> intro mx hmx <;> first
    | · simp only [Option.some.injEq] at hmx
        rw [← hmx]
        norm_num
    | exact absurd hmx (by simp)

/-- The loop total is non-increasing in the threshold, for non-negative
counts and well-formed bounds. -/
theorem householdsAboveAux_antitone (t1 t2 : ℚ) (ht : t1 ≤ t2) :
    ∀ (bs : List (ℚ × Option ℚ)) (cs : List ℚ),
      (∀ b ∈ bs, ∀ mx : ℚ, b.2 = some mx → b.1 ≤ mx) → (∀ c ∈ cs, 0 ≤ c) →
      ∀ h1 h2, householdsAboveAux t1 bs cs = some h1 →
        householdsAboveAux t2 bs cs = some h2 → h2 ≤ h1
  | bs, [], _, _, h1, h2, e1, e2 => by
      cases bs <;>
        · simp only [householdsAboveAux, Option.some.injEq] at e1 e2
          rw [← e1, ← e2]
  | [], c :: cs, _, _, h1, h2, e1, e2 => by
      simp [householdsAboveAux] at e1
  | b :: bs, c :: cs, hb, hc, h1, h2, e1, e2 => by
      simp only [householdsAboveAux] at e1 e2
      obtain ⟨r1, hr1, hf1⟩ := Option.map_eq_some'.mp e1
      obtain ⟨r2, hr2, hf2⟩ := Option.map_eq_some'.mp e2
      have hrec : r2 ≤ r1 :=
        householdsAboveAux_antitone t1 t2 ht bs cs
          (fun b' hb' => hb b' (by simp [hb']))
          (fun c' hc' => hc c' (by simp [hc'])) r1 r2 hr1 hr2
      have hcontrib : bracketContrib t2 b c ≤ bracketContrib t1 b c :=
        bracketContrib_antitone t1 t2 ht b (hb b (by simp)) c (hc c (by simp))
      rw [← hf1, ← hf2]
      exact add_le_add hcontrib hrec

/-- `Math.round` is monotone. -/
theorem jsRound_mono {a b : ℚ} (h : a ≤ b) : jsRound a ≤ jsRound b :=
  Int.floor_mono (by linarith)

/-- Claim C4: for a fixed histogram (positive total, 16 non-negative bracket
counts), the affordability percentage is monotone non-increasing in the
income threshold. -/
theorem computeAffordabilityPct_antitone (t1 t2 N : ℚ) (cs : List ℚ)
    (hlen : cs.length = 16) (hN : 0 < N) (hc : ∀ c ∈ cs, 0 ≤ c) (ht : t1 < t2)
    (p1 p2 : ℚ) (e1 : computeAffordabilityPct t1 N cs = some p1)
    (e2 : computeAffordabilityPct t2 N cs = some p2) : p2 ≤ p1 := by
  unfold computeAffordabilityPct at e1 e2
  rw [if_neg (ne_of_gt hN)] at e1 e2
  obtain ⟨r1, hr1, hf1⟩ := Option.map_eq_some'.mp e1
  obtain ⟨r2, hr2, hf2⟩ := Option.map_eq_some'.mp e2
  have hr : r2 ≤ r1 :=
    householdsAboveAux_antitone t1 t2 (le_of_lt ht) BRACKET_BOUNDS cs
      BRACKET_BOUNDS_wf hc r1 r2 hr1 hr2
  have harg : r2 / N * 1000 ≤ r1 / N * 1000 := by
    have : r2 / N ≤ r1 / N := (div_le_div_iff_of_pos_right hN).mpr hr
    linarith
  have hj : jsRound (r2 / N * 1000) ≤ jsRound (r1 / N * 1000) := jsRound_mono harg
  rw [← hf1, ← hf2]
  have hcast : (jsRound (r2 / N * 1000) : ℚ) ≤ (jsRound (r1 / N * 1000) : ℚ) := by
    exact_mod_cast hj
  linarith

/-- Witness for C4: equal bracket counts of 10, thresholds 30000 < 40000;
the percentages are 68.8 and 56.3. -/
theorem computeAffordabilityPct_antitone_witness :
    (563 : ℚ) / 10 ≤ (688 : ℚ) / 10 :=
  computeAffordabilityPct_antitone 30000 40000 160 (List.replicate 16 10)
    (by simp) (by norm_num)
    (by intro c hcm; rw [List.eq_of_mem_replicate hcm]; norm_num)
    (by norm_num) ((688 : ℚ) / 10) ((563 : ℚ) / 10)
    (by norm_num [computeAffordabilityPct, householdsAboveAux, bracketContrib,
      BRACKET_BOUNDS, jsRound, List.replicate])
    (by norm_num [computeAffordabilityPct, householdsAboveAux, bracketContrib,
      BRACKET_BOUNDS, jsRound, List.replicate])

/-! ## C6 — sort-plus-binary-search count agrees with the linear scan -/

/-- In a sorted list, the elements strictly below `x` occupy exactly the
first `countP (· < x)` positions. -/
theorem sorted_get_lt_iff (x : ℚ) :
    ∀ (s : List ℚ), s.Sorted (· ≤ ·) → ∀ (i : ℕ) (h : i < s.length),
      (s.get ⟨i, h⟩ < x ↔ i < s.countP (fun p => decide (p < x)))
  | [], _, i, h => by simp at h
  | a :: t, hs, i, h => by
      rw [List.countP_cons]
      by_cases hax : a < x
      · cases i with
        | zero => simp [hax]
        | succ j =>
            have hj : j < t.length := by simpa using h
            have ih := sorted_get_lt_iff x t hs.of_cons j hj
            simpa [hax, Nat.succ_lt_succ_iff] using ih
      · have hnone : ∀ b ∈ t, ¬ b < x := fun b hb hbx =>
          hax (lt_of_le_of_lt (List.rel_of_sorted_cons hs b hb) hbx)
        have hcnt : t.countP (fun p => decide (p < x)) = 0 :=
          List.countP_eq_zero.mpr (fun b hb => by simpa using hnone b hb)
        cases i with
        | zero => simp [hax, hcnt]
        | succ j =>
            have hj : j < t.length := by simpa using h
            have hb := hnone (t.get ⟨j, hj⟩) (t.get_mem j hj)
            simp only [List.get_cons_succ]
            refine iff_of_false hb ?_
            simp [hax, hcnt]

/-- The binary-search loop, run on a sorted list with bounds bracketing the
below-count, returns exactly the below-count. -/
theorem lowerBoundAux_eq_countP (x : ℚ) (s : List ℚ) (hs : s.Sorted (· ≤ ·)) :
    ∀ (n lo hi : ℕ), hi - lo ≤ n → hi ≤ s.length →
      lo ≤ s.countP (fun p => decide (p < x)) →
      s.countP (fun p => decide (p < x)) ≤ hi →
      lowerBoundAux s x lo hi = s.countP (fun p => decide (p < x)) := by
  intro n
  induction n with
  | zero =>
      intro lo hi hn hhi hlo hhi2
      rw [lowerBoundAux, dif_neg (by omega : ¬ lo < hi)]
      omega
  | succ n IH =>
      intro lo hi hn hhi hlo hhi2
      rw [lowerBoundAux]
      by_cases hlt : lo < hi
      · rw [dif_pos hlt]
        have hmlt : (lo + hi) / 2 < hi := Nat.div_lt_of_lt_mul (by omega)
        have hmge : lo ≤ (lo + hi) / 2 :=
          (Nat.le_div_iff_mul_le (by omega)).mpr (by omega)
        have hmlen : (lo + hi) / 2 < s.length := lt_of_lt_of_le hmlt hhi
        show (if s.getD ((lo + hi) / 2) 0 < x then lowerBoundAux s x ((lo + hi) / 2 + 1) hi
          else lowerBoundAux s x lo ((lo + hi) / 2)) = s.countP (fun p => decide (p < x))
        have hgetd : s.getD ((lo + hi) / 2) 0 = s.get ⟨(lo + hi) / 2, hmlen⟩ := by
          rw [List.getD_eq_getElem s 0 hmlen, List.get_eq_getElem]
        rw [hgetd]
        by_cases hx : s.get ⟨(lo + hi) / 2, hmlen⟩ < x
        · rw [if_pos hx]
          have hcnt : (lo + hi) / 2 < s.countP (fun p => decide (p < x)) :=
            (sorted_get_lt_iff x s hs _ hmlen).mp hx
          exact IH ((lo + hi) / 2 + 1) hi (by omega) hhi (by omega) hhi2
        · rw [if_neg hx]
          have hcnt : s.countP (fun p => decide (p < x)) ≤ (lo + hi) / 2 := by
            by_contra hcon
            push_neg at hcon
            exact hx ((sorted_get_lt_iff x s hs _ hmlen).mpr hcon)
          exact IH lo ((lo + hi) / 2) (by omega) (le_of_lt hmlen) hlo hcnt
      · rw [dif_neg hlt]
        omega

/-- Claim C6: for every list of affordability percentages and every target
value occurring in it, the sort-then-binary-search count of values strictly
below the target equals the direct linear count, and hence the rounded
percentile computed from either count is the same. -/
theorem binarySearchBelowCount_eq_linear (pcts : List ℚ) (x : ℚ) (hx : x ∈ pcts) :
    binarySearchBelowCount pcts x = linearBelowCount pcts x ∧
    percentileOf pcts x =
      (jsRound ((binarySearchBelowCount pcts x : ℚ) / (pcts.length : ℚ) * 1000) : ℚ)
        / 10 := by
  have hsorted : (pcts.insertionSort (· ≤ ·)).Sorted (· ≤ ·) :=
    List.sorted_insertionSort (· ≤ ·) pcts
  have hperm : List.Perm (pcts.insertionSort (· ≤ ·)) pcts :=
    List.perm_insertionSort (· ≤ ·) pcts
  have hcnt : (pcts.insertionSort (· ≤ ·)).countP (fun p => decide (p < x)) =
      pcts.countP (fun p => decide (p < x)) := hperm.countP_eq _
  have hmain : binarySearchBelowCount pcts x = pcts.countP (fun p => decide (p < x)) := by
    unfold binarySearchBelowCount
    rw [lowerBoundAux_eq_countP x _ hsorted (pcts.insertionSort (· ≤ ·)).length 0 _
      (by omega) le_rfl (Nat.zero_le _) (List.countP_le_length _), hcnt]
  have hlin : linearBelowCount pcts x = pcts.countP (fun p => decide (p < x)) := by
    rw [linearBelowCount, List.countP_eq_length_filter]
  refine ⟨by rw [hmain, hlin], ?_⟩
  rw [percentileOf, hmain, hlin]

/-! ## C7 — per-tract threshold selection under a ZIP rent table -/

/-- Claim C7 (counterexample): a tract whose ZIP has a rent-table entry whose
2BR rent is 0 is NOT evaluated at `rentTable[zip][2] · 12 / 0.3 = 0`: the
code's truthiness check on the rent falls back to the uniform threshold
(here 100). -/
theorem effectiveThreshold_zero_rent_not_own :
    effectiveThreshold zeroRentZipMapping (some zeroRentTable) 2 100
        ("01001000100") ≠ (0 : ℚ) * 12 / (3/10) := by
  norm_num [effectiveThreshold, zeroRentZipMapping, zeroRentTable]

/-- Claim C7 (amended): with a per-ZIP rent table supplied, a tract is
evaluated at its own ZIP threshold `fmr · 12 / 0.3` exactly when its ZIP
resolves to a nonempty string holding a table entry whose `bedroomIndex`
slot is present and nonzero; a tract whose ZIP is missing is evaluated at
the uniform threshold, and so is one whose ZIP is empty, has no table entry,
or whose entry's slot is missing or zero. -/
theorem effectiveThreshold_characterization
    (zm : String → Option String) (tbl : String → Option (List ℚ))
    (bIdx : ℕ) (uniform : ℚ) (fips : String) :
    (∀ zip fmrArr fmr, zm fips = some zip → zip ≠ "" → tbl zip = some fmrArr →
      fmrArr[bIdx]? = some fmr → fmr ≠ 0 →
      effectiveThreshold zm (some tbl) bIdx uniform fips = fmr * 12 / (3/10)) ∧
    (zm fips = none → effectiveThreshold zm (some tbl) bIdx uniform fips = uniform) ∧
    (∀ zip, zm fips = some zip →
      (zip = "" ∨ tbl zip = none ∨
        (∃ fmrArr, tbl zip = some fmrArr ∧
          (fmrArr[bIdx]? = none ∨ fmrArr[bIdx]? = some 0))) →
      effectiveThreshold zm (some tbl) bIdx uniform fips = uniform) := by
  refine ⟨?_, ?_, ?_⟩
  · intro zip fmrArr fmr hzip hne htbl hslot hfmr
    simp [effectiveThreshold, hzip, hne, htbl, hslot, hfmr]
  · intro hzip
    simp [effectiveThreshold, hzip]
  · intro zip hzip hcase
    rcases hcase with hempty | hnone | ⟨fmrArr, htbl, hslot⟩
    · simp [effectiveThreshold, hzip, hempty]
    · by_cases hne : zip = ""
      · simp [effectiveThreshold, hzip, hne]
      · simp [effectiveThreshold, hzip, hne, hnone]
    · by_cases hne : zip = ""
      · simp [effectiveThreshold, hzip, hne]
      · rcases hslot with hmiss | hzero
        · simp [effectiveThreshold, hzip, hne, htbl, hmiss]
        · simp [effectiveThreshold, hzip, hne, htbl, hzero]

/-! ## C8 — the ranker signals absence, never an exception -/

/-- The interpolator succeeds on every count list of length at most 16. -/
theorem computeAffordabilityPct_isSome (t N : ℚ) (cs : List ℚ)
    (h : cs.length ≤ 16) : (computeAffordabilityPct t N cs).isSome := by
  unfold computeAffordabilityPct
  split
  · simp
  · simpa [householdsAboveAux_isSome, BRACKET_BOUNDS_length] using h

/-- With well-formed tract rows (at most 16 bracket counts each), the
ranker's loop never throws: it returns one percentage per row, and records a
target percentage exactly when some row carries the target GEOID. -/
theorem scanTracts_total (zm : String → Option String)
    (safmr : Option (String → Option (List ℚ))) (bIdx : ℕ) (thr : ℚ)
    (tgt : String) :
    ∀ (data : List MsaTract), (∀ tr ∈ data, tr.brackets.length ≤ 16) →
      ∃ pcts tp, scanTracts zm safmr bIdx thr tgt data = .ok (pcts, tp) ∧
        pcts.length = data.length ∧
        (tp = none ↔ ∀ tr ∈ data, tr.fips ≠ tgt)
  | [], _ => ⟨[], none, rfl, rfl, by simp⟩
  | tr :: rest, hwf => by
      obtain ⟨pcts, tp, hscan, hlen, htp⟩ :=
        scanTracts_total zm safmr bIdx thr tgt rest (fun u hu => hwf u (by simp [hu]))
      have hsome : (computeAffordabilityPct
          (effectiveThreshold zm safmr bIdx thr tr.fips) tr.total tr.brackets).isSome :=
        computeAffordabilityPct_isSome _ _ _ (hwf tr (by simp))
      obtain ⟨pct, hpct⟩ := Option.isSome_iff_exists.mp hsome
      refine ⟨pct :: pcts,
        tp.orElse (fun _ => if tr.fips = tgt then some pct else none),
        ?_, by simp [hlen], ?_⟩
      · simp only [scanTracts, hpct, hscan]
      · cases tp with
        | some v =>
            constructor
            · intro hbad
              simp [Option.orElse] at hbad
            · intro hall
              exact absurd (htp.mpr fun u hu => hall u (by simp [hu])) (by simp)
        | none =>
            have hrest : ∀ u ∈ rest, u.fips ≠ tgt := htp.mp rfl
            constructor
            · intro hnone u hu
              rcases List.mem_cons.mp hu with rfl | hu2
              · intro hfips
                simp [Option.orElse, hfips] at hnone
              · exact hrest u hu2
            · intro hall
              have : tr.fips ≠ tgt := hall tr (by simp)
              simp [Option.orElse, this]

/-- Claim C8: with well-formed region datasets (each row carrying at most 16
bracket counts, per the data model), the ranker never throws — it always
returns `.ok` — and it returns the absent result exactly in the three
not-found conditions: unmapped 5-digit county key, missing or empty region
dataset, or target 11-digit GEOID absent from the region's rows. -/
theorem computeMsaPercentile_absent_iff
    (c2c : String → Option CbsaInfo) (store : String → Option (List MsaTract))
    (zm : String → Option String) (s c t : String) (thr : ℚ)
    (safmr : Option (String → Option (List ℚ))) (bIdx : ℕ)
    (hwf : ∀ code data, store code = some data →
      ∀ tr ∈ data, tr.brackets.length ≤ 16) :
    (∃ r, computeMsaPercentile c2c store zm s c t thr safmr bIdx = .ok r) ∧
    (computeMsaPercentile c2c store zm s c t thr safmr bIdx = .ok none ↔
      c2c (s ++ c) = none ∨
      (∃ cbsa, c2c (s ++ c) = some cbsa ∧
        (store cbsa.code = none ∨ store cbsa.code = some [])) ∨
      (∃ cbsa data, c2c (s ++ c) = some cbsa ∧ store cbsa.code = some data ∧
        ∀ tr ∈ data, tr.fips ≠ s ++ c ++ t)) := by
  cases hc : c2c (s ++ c) with
  | none =>
      refine ⟨⟨none, by simp [computeMsaPercentile, hc]⟩, ?_⟩
      simp [computeMsaPercentile, hc]
  | some cbsa =>
      cases hm : store cbsa.code with
      | none =>
          refine ⟨⟨none, by simp [computeMsaPercentile, hc, hm]⟩, ?_⟩
          constructor
          · intro _
            exact Or.inr (Or.inl ⟨cbsa, rfl, Or.inl hm⟩)
          · intro _
            simp [computeMsaPercentile, hc, hm]
      | some data =>
          cases data with
          | nil =>
              refine ⟨⟨none, by simp [computeMsaPercentile, hc, hm]⟩, ?_⟩
              constructor
              · intro _
                exact Or.inr (Or.inl ⟨cbsa, rfl, Or.inr hm⟩)
              · intro _
                simp [computeMsaPercentile, hc, hm]
          | cons tr0 rest0 =>
              obtain ⟨pcts, tp, hscan, hlen, htp⟩ :=
                scanTracts_total zm safmr bIdx thr (s ++ c ++ t) (tr0 :: rest0)
                  (hwf cbsa.code (tr0 :: rest0) hm)
              cases tp with
              | none =>
                  refine ⟨⟨none, by simp [computeMsaPercentile, hc, hm, hscan]⟩, ?_⟩
                  constructor
                  · intro _
                    exact Or.inr (Or.inr ⟨cbsa, tr0 :: rest0, rfl, hm, htp.mp rfl⟩)
                  · intro _
                    simp [computeMsaPercentile, hc, hm, hscan]
              | some p =>
                  refine ⟨⟨some ⟨percentileOf pcts p, pcts.length, cbsa.name⟩,
                    by simp [computeMsaPercentile, hc, hm, hscan]⟩, ?_⟩
                  constructor
                  · intro hbad
                    simp [computeMsaPercentile, hc, hm, hscan] at hbad
                  · rintro (hbad | ⟨cbsa2, hc2, hbad⟩ | ⟨cbsa2, data2, hc2, hm2, hbad⟩)
                    · exact absurd hbad (by simp)
                    · obtain rfl : cbsa = cbsa2 := by
                        simpa using hc2
                      rcases hbad with hbad | hbad <;> rw [hm] at hbad <;>
                        simp at hbad
                    · obtain rfl : cbsa = cbsa2 := by
                        simpa using hc2
                      rw [hm] at hm2
                      obtain rfl : tr0 :: rest0 = data2 := by
                        simpa using hm2
                      exact absurd (htp.mpr hbad) (by simp)

/-- Witness for C8: an empty county mapping and an empty store — the ranker
returns the absent result, and the first not-found condition holds. -/
theorem computeMsaPercentile_absent_iff_witness :
    (∃ r, computeMsaPercentile (fun _ => none) (fun _ => none) (fun _ => none)
      ("01") ("001") ("000100") 0 none 2 = .ok r) ∧
    (computeMsaPercentile (fun _ => none) (fun _ => none) (fun _ => none)
        ("01") ("001") ("000100") 0 none 2 = .ok none ↔
      (fun _ : String => (none : Option CbsaInfo)) ("01" ++ "001") = none ∨
      (∃ cbsa, (fun _ : String => (none : Option CbsaInfo)) ("01" ++ "001") = some cbsa ∧
        ((fun _ : String => (none : Option (List MsaTract))) cbsa.code = none ∨
          (fun _ : String => (none : Option (List MsaTract))) cbsa.code = some [])) ∨
      (∃ cbsa data,
        (fun _ : String => (none : Option CbsaInfo)) ("01" ++ "001") = some cbsa ∧
        (fun _ : String => (none : Option (List MsaTract))) cbsa.code = some data ∧
        ∀ tr ∈ data, tr.fips ≠ "01" ++ "001" ++ "000100")) :=
  computeMsaPercentile_absent_iff (fun _ => none) (fun _ => none) (fun _ => none)
    ("01") ("001") ("000100") 0 none 2 (fun _ _ h => by simp at h)

/-- Witness for C6: the spec's scenario-3 percentages with target 20. -/
theorem binarySearchBelowCount_eq_linear_witness :
    binarySearchBelowCount [10, 20, 20, 55, 90] 20 =
        linearBelowCount [10, 20, 20, 55, 90] 20 ∧
      percentileOf [10, 20, 20, 55, 90] 20 =
        (jsRound ((binarySearchBelowCount [10, 20, 20, 55, 90] 20 : ℚ)
          / (([10, 20, 20, 55, 90] : List ℚ).length : ℚ) * 1000) : ℚ) / 10 :=
  binarySearchBelowCount_eq_linear [10, 20, 20, 55, 90] 20 (by norm_num)

/-! ## C2 — the percentile formula and concrete scenario 3 -/

/-- Claim C2: whenever the ranker returns a populated result, its percentile
equals round(1000 · belowCount / tractCount) / 10, where belowCount counts
the region's computed percentages strictly below the target's (so ties do
not count); and on the concrete scenario — percentages [10, 20, 20, 55, 90]
with the target at 20 — it returns percentile 20.0 over 5 tracts. -/
theorem computeMsaPercentile_percentile_spec :
    (∀ (c2c : String → Option CbsaInfo) (store : String → Option (List MsaTract))
      (zm : String → Option String) (s c t : String) (thr : ℚ)
      (safmr : Option (String → Option (List ℚ))) (bIdx : ℕ) (r : PercentileResult),
      computeMsaPercentile c2c store zm s c t thr safmr bIdx = .ok (some r) →
      ∃ cbsa data pcts p,
        c2c (s ++ c) = some cbsa ∧ store cbsa.code = some data ∧
        scanTracts zm safmr bIdx thr (s ++ c ++ t) data = .ok (pcts, some p) ∧
        r.percentile =
          (jsRound (((pcts.countP fun q => decide (q < p)) : ℚ)
            / (pcts.length : ℚ) * 1000) : ℚ) / 10 ∧
        r.msaTractCount = pcts.length) ∧
    computeMsaPercentile demoCountyToCbsa demoMsaStore demoZipMapping
        ("01") ("001") ("000100") 50000 none 2 =
      .ok (some ⟨20, 5, "TestRegion"⟩) := by
  constructor
  · intro c2c store zm s c t thr safmr bIdx r hr
    cases hc : c2c (s ++ c) with
    | none => simp [computeMsaPercentile, hc] at hr
    | some cbsa =>
      cases hm : store cbsa.code with
      | none => simp [computeMsaPercentile, hc, hm] at hr
      | some data =>
        cases hscan : scanTracts zm safmr bIdx thr (s ++ c ++ t) data with
        | error err =>
            by_cases hemp : data.isEmpty
            · simp [computeMsaPercentile, hc, hm, hemp] at hr
            · simp [computeMsaPercentile, hc, hm, hemp, hscan] at hr
        | ok pr =>
            obtain ⟨pcts, tp⟩ := pr
            by_cases hemp : data.isEmpty
            · simp [computeMsaPercentile, hc, hm, hemp] at hr
            · cases tp with
              | none => simp [computeMsaPercentile, hc, hm, hemp, hscan] at hr
              | some p =>
                  refine ⟨cbsa, data, pcts, p, rfl, hm, hscan, ?_⟩
                  have hr2 : some (PercentileResult.mk (percentileOf pcts p)
                      pcts.length cbsa.name) = some r := by
                    simpa [computeMsaPercentile, hc, hm, hemp, hscan] using hr
                  obtain rfl : PercentileResult.mk (percentileOf pcts p)
                      pcts.length cbsa.name = r := by simpa using hr2
                  refine ⟨?_, rfl⟩
                  simp [percentileOf, linearBelowCount, List.countP_eq_length_filter]
  · have happ1 : ("01" : String) ++ "001" = "01001" := by simp
    have happ2 : ("01" : String) ++ "001" ++ "000100" = "01001000100" := by simp
    have happ3 : ("01001" : String) ++ "000100" = "01001000100" := by simp
    have hne2 : (("01001000200" : String) = "01001000100") = False := eq_false (by simp)
    have hne3 : (("01001000300" : String) = "01001000100") = False := eq_false (by simp)
    have hne4 : (("01001000400" : String) = "01001000100") = False := eq_false (by simp)
    have hne5 : (("01001000500" : String) = "01001000100") = False := eq_false (by simp)
    simp only [computeMsaPercentile, happ1, happ2, happ3]
    norm_num [demoCountyToCbsa, demoMsaStore, demoZipMapping, demoMsaTracts,
      demoCounts, scanTracts, effectiveThreshold, computeAffordabilityPct,
      householdsAboveAux, bracketContrib, BRACKET_BOUNDS, jsRound, percentileOf,
      linearBelowCount, Option.orElse, hne2, hne3, hne4, hne5]

/-! ## C5 — the bounded region cache: capacity and insertion-order eviction -/

/-- One `loadMsaData` call never pushes the cache past its capacity. -/
theorem loadMsaData_entries_le (store : String → Option (List MsaTract))
    (cache : MsaCache) (code : String)
    (h : cache.entries.length ≤ MSA_DATA_MAX) :
    (loadMsaData store cache code).2.entries.length ≤ MSA_DATA_MAX := by
  unfold loadMsaData
  cases cacheGet cache code with
  | some d => exact h
  | none =>
    cases store code with
    | none => exact h
    | some d =>
      by_cases hfull : MSA_DATA_MAX ≤ cache.entries.length
      · simp only [if_pos hfull, List.length_append, List.length_drop,
          List.length_singleton]
        simp only [MSA_DATA_MAX] at *
        omega
      · simp only [if_neg hfull, List.length_append, List.length_singleton]
        simp only [MSA_DATA_MAX] at *
        omega

/-- Any sequence of loads keeps the cache within capacity. -/
theorem runLoads_entries_le (store : String → Option (List MsaTract))
    (codes : List String) :
    ∀ (cache : MsaCache), cache.entries.length ≤ MSA_DATA_MAX →
      (runLoads store cache codes).entries.length ≤ MSA_DATA_MAX := by
  induction codes with
  | nil => intro cache h; exact h
  | cons k ks IH =>
      intro cache h
      exact IH (loadMsaData store cache k).2 (loadMsaData_entries_le store cache k h)

/-- Claim C5: (i) starting from the empty cache, after any sequence of loads
at most `MSA_DATA_MAX = 5` entries are resident; (ii) loading `K + 1 = 6`
distinct region codes, each backed by the store, leaves exactly 5 resident
entries with the first-inserted code evicted — its next lookup misses, and a
further `loadMsaData` call reloads it from the backing store and re-inserts
it. -/
theorem loadMsaData_cache_bound_and_eviction :
    (∀ (store : String → Option (List MsaTract)) (codes : List String),
      (runLoads store ⟨[]⟩ codes).entries.length ≤ MSA_DATA_MAX) ∧
    (∀ (store : String → Option (List MsaTract)) (a b c d e f : String)
      (da db dc dd de df : List MsaTract),
      ([a, b, c, d, e, f] : List String).Nodup →
      store a = some da → store b = some db → store c = some dc →
      store d = some dd → store e = some de → store f = some df →
      (runLoads store ⟨[]⟩ [a, b, c, d, e, f]).entries.length = MSA_DATA_MAX ∧
      cacheGet (runLoads store ⟨[]⟩ [a, b, c, d, e, f]) a = none ∧
      (loadMsaData store (runLoads store ⟨[]⟩ [a, b, c, d, e, f]) a).1 = some da ∧
      cacheGet (loadMsaData store (runLoads store ⟨[]⟩ [a, b, c, d, e, f]) a).2 a =
        some da) := by
  constructor
  · intro store codes
    exact runLoads_entries_le store codes ⟨[]⟩ (by simp)
  · intro store a b c d e f da db dc dd de df hnd ha hb hc hd he hf
    simp only [List.nodup_cons, List.mem_cons, List.mem_singleton,
      List.not_mem_nil, or_false, not_or, List.nodup_nil, and_true] at hnd
    obtain ⟨⟨hab, hac, had, hae, haf⟩, ⟨hbc, hbd, hbe, hbf⟩,
      ⟨hcd, hce, hcf⟩, ⟨hde, hdf⟩, hef, -⟩ := hnd
    have hfinal : runLoads store ⟨[]⟩ [a, b, c, d, e, f] =
        ⟨[(b, db), (c, dc), (d, dd), (e, de), (f, df)]⟩ := by
      simp [runLoads, loadMsaData, cacheGet, MSA_DATA_MAX, ha, hb, hc, hd, he, hf,
        List.lookup_cons,
        beq_eq_false_iff_ne.mpr (Ne.symm hab), beq_eq_false_iff_ne.mpr (Ne.symm hac),
        beq_eq_false_iff_ne.mpr (Ne.symm had), beq_eq_false_iff_ne.mpr (Ne.symm hae),
        beq_eq_false_iff_ne.mpr (Ne.symm haf), beq_eq_false_iff_ne.mpr (Ne.symm hbc),
        beq_eq_false_iff_ne.mpr (Ne.symm hbd), beq_eq_false_iff_ne.mpr (Ne.symm hbe),
        beq_eq_false_iff_ne.mpr (Ne.symm hbf), beq_eq_false_iff_ne.mpr (Ne.symm hcd),
        beq_eq_false_iff_ne.mpr (Ne.symm hce), beq_eq_false_iff_ne.mpr (Ne.symm hcf),
        beq_eq_false_iff_ne.mpr (Ne.symm hde), beq_eq_false_iff_ne.mpr (Ne.symm hdf),
        beq_eq_false_iff_ne.mpr (Ne.symm hef)]
    have hmiss : cacheGet ⟨[(b, db), (c, dc), (d, dd), (e, de), (f, df)]⟩ a = none := by
      simp [cacheGet, List.lookup_cons,
        beq_eq_false_iff_ne.mpr hab, beq_eq_false_iff_ne.mpr hac,
        beq_eq_false_iff_ne.mpr had, beq_eq_false_iff_ne.mpr hae,
        beq_eq_false_iff_ne.mpr haf]
    refine ⟨by rw [hfinal]; rfl, by rw [hfinal]; exact hmiss, ?_, ?_⟩
    · rw [hfinal]
      unfold loadMsaData
      rw [hmiss, ha]
    · rw [hfinal]
      unfold loadMsaData
      rw [hmiss, ha]
      simp [cacheGet, MSA_DATA_MAX, List.lookup_cons,
        beq_eq_false_iff_ne.mpr hac, beq_eq_false_iff_ne.mpr had,
        beq_eq_false_iff_ne.mpr hae, beq_eq_false_iff_ne.mpr haf]

end AmiMap
